import Mathlib

/-!
Shallow embedding of the CloudDriveClient repository for verification.

Modelled sources:
* the Vercel serverless WebDAV proxy handler (catch-all `/api/proxy/[...path]`),
* the `FileService` drive-configuration CRUD and multi-item `move`,
* the `sortedFiles` comparator of the file-browser component.

JavaScript runtime facts used by the embedding:
* Node lower-cases incoming request header names; response `setHeader`
  replaces an existing header case-insensitively.
* `typeof` is `"object"` for parsed JSON objects/arrays and for `Buffer`s,
  `"string"` for strings; `JSON.stringify` of a `Buffer` serializes its
  `toJSON()` form.
* `Array.prototype.sort` is a stable sort consistent with the comparator;
  it is modelled by `List.mergeSort`.
-/

namespace CloudDrive

/-! ### JSON values and `JSON.stringify` -/

mutual

/-- A JavaScript JSON value (the possible shapes of a parsed request body). -/
inductive Json where
  | null
  | bool (b : Bool)
  | num (n : Int)
  | str (s : String)
  | arr (elems : JsonList)
  | obj (fields : JsonFields)

/-- A list of JSON values (array elements). -/
inductive JsonList where
  | nil
  | cons (hd : Json) (tl : JsonList)

/-- The fields of a JSON object, in insertion order. -/
inductive JsonFields where
  | nil
  | cons (k : String) (v : Json) (tl : JsonFields)

end

/-- Hexadecimal digit character (lower case), as `JSON.stringify` emits. -/
def hexDigit (n : Nat) : Char :=
  if n < 10 then Char.ofNat (48 + n) else Char.ofNat (87 + n)

/-- Escaping of a single character inside a JSON string literal
(ECMA-262 `QuoteJSONString`). -/
def jsonEscapeChar (c : Char) : String :=
  if c = '"' then "\\\""
  else if c = '\\' then "\\\\"
  else if c = Char.ofNat 8 then "\\b"
  else if c = Char.ofNat 12 then "\\f"
  else if c = '\n' then "\\n"
  else if c = Char.ofNat 13 then "\\r"
  else if c = '\t' then "\\t"
  else if c.toNat < 32 then
    "\\u00" ++ String.mk [hexDigit (c.toNat / 16), hexDigit (c.toNat % 16)]
  else String.singleton c

/-- JSON string literal quoting. -/
def quoteJsonString (s : String) : String :=
  "\"" ++ String.join (s.toList.map jsonEscapeChar) ++ "\""

mutual

/-- `JSON.stringify` (no spacing, as the default call in the handler). -/
def jsonStringify : Json → String
  | .null => "null"
  | .bool b => if b then "true" else "false"
  | .num n => toString n
  | .str s => quoteJsonString s
  | .arr es => "[" ++ jsonListStringify es ++ "]"
  | .obj fs => "\x7b" ++ jsonFieldsStringify fs ++ "\x7d"

/-- Comma-joined serialization of array elements. -/
def jsonListStringify : JsonList → String
  | .nil => ""
  | .cons j .nil => jsonStringify j
  | .cons j tl => jsonStringify j ++ "," ++ jsonListStringify tl

/-- Comma-joined serialization of object fields. -/
def jsonFieldsStringify : JsonFields → String
  | .nil => ""
  | .cons k v .nil => quoteJsonString k ++ ":" ++ jsonStringify v
  | .cons k v tl => quoteJsonString k ++ ":" ++ jsonStringify v ++ "," ++ jsonFieldsStringify tl

end

/-! ### String helpers with JavaScript semantics

Defined structurally over the character list so that the kernel can evaluate
them on concrete inputs (the header names and paths involved are ASCII, where
these agree with `toLowerCase`, `split`, and `replace(/\/+$/, '')`). -/

/-- JavaScript `s.toLowerCase()` (ASCII case folding). -/
def toLowerCase (s : String) : String :=
  String.mk (s.data.map Char.toLower)

/-- JavaScript `split` with a one-character separator, over character lists:
every string splits into at least one (possibly empty) group. -/
def splitChar (sep : Char) : List Char → List (List Char)
  | [] => [[]]
  | c :: rest =>
      if c == sep then [] :: splitChar sep rest
      else
        match splitChar sep rest with
        | [] => [[c]]
        | g :: gs => (c :: g) :: gs

/-- JavaScript `s.split(sep)` for a one-character separator. -/
def splitOnChar (s : String) (sep : Char) : List String :=
  (splitChar sep s.data).map String.mk

/-! ### Request bodies as Vercel delivers them (`req.body`) -/

/-- The shape of `req.body`: absent (`undefined`/`null`), a string, a parsed
JSON value (`typeof` = `"object"`), or a Node `Buffer` (`typeof` = `"object"`). -/
inductive ReqBody where
  | none
  | str (s : String)
  | obj (j : Json)
  | buf (bytes : List Nat)

/-- JavaScript `typeof req.body`. A `Buffer` is an object. -/
def ReqBody.jsTypeof : ReqBody → String
  | .none => "undefined"
  | .str _ => "string"
  | .obj _ => "object"
  | .buf _ => "object"

/-- JavaScript truthiness of `req.body` (the `if (req.body)` guard):
`undefined`/`null` and the empty string are falsy, objects and buffers truthy. -/
def ReqBody.truthy : ReqBody → Bool
  | .none => false
  | .str s => !(s == "")
  | .obj _ => true
  | .buf _ => true

/-- `Buffer.prototype.toJSON`: a buffer stringifies as
`\x7b"type":"Buffer","data":[…]\x7d`. -/
def bufferToJson (bytes : List Nat) : Json :=
  .obj (.cons "type" (.str "Buffer")
    (.cons "data" (.arr (bytes.foldr (fun b acc => .cons (.num (Int.ofNat b)) acc) .nil)) .nil))

/-- The value of `typeof req.body === 'object' ? JSON.stringify(req.body) : req.body`
for a truthy body: parsed objects and buffers are `JSON.stringify`ed,
strings pass through unchanged. -/
def serializeReqBody : ReqBody → String
  | .obj j => jsonStringify j
  | .buf bytes => jsonStringify (bufferToJson bytes)
  | .str s => s
  | .none => ""

/-! ### Header maps -/

/-- A header map, as an insertion-ordered association list. -/
abbrev Headers := List (String × String)

/-- Assignment `o[k] = v` on a plain JavaScript object: replace the value of an
existing key (exact, case-sensitive match) in place, otherwise append. -/
def jsObjSet (o : Headers) (k v : String) : Headers :=
  if o.any (fun kv => kv.1 == k) then
    o.map (fun kv => if kv.1 == k then (k, v) else kv)
  else o ++ [(k, v)]

/-- Node `res.setHeader k v`: replace an existing header whose name matches
case-insensitively (the sent header takes the new spelling), otherwise append. -/
def setHeaderNode (hs : Headers) (k v : String) : Headers :=
  if hs.any (fun kv => toLowerCase kv.1 == toLowerCase k) then
    hs.map (fun kv => if toLowerCase kv.1 == toLowerCase k then (k, v) else kv)
  else hs ++ [(k, v)]

/-- Case-insensitive header lookup (first match). -/
def lookupCI (hs : Headers) (k : String) : Option String :=
  (hs.find? (fun kv => toLowerCase kv.1 == toLowerCase k)).map (fun kv => kv.2)

/-! ### The proxy handler -/

/-- The fixed upstream base URL. -/
def upstreamBase : String := "https://dav.jianguoyun.com/dav/"

/-- The fixed `Access-Control-Allow-Methods` value. -/
def allowMethodsStr : String :=
  "GET, POST, PUT, DELETE, OPTIONS, PROPFIND, MKCOL, MOVE, COPY, LOCK, UNLOCK"

/-- The fixed `Access-Control-Allow-Headers` value. -/
def allowHeadersStr : String :=
  "Authorization, Content-Type, Depth, If-Match, If-Modified-Since, If-None-Match, If-Unmodified-Since, Destination, Overwrite, User-Agent, X-Requested-With"

/-- The forced upstream `user-agent` value. -/
def fixedUserAgent : String := "WebDAVFS/1.0.0 (0.0.0) CloudMgr/1.0.0"

/-- Request header names stripped before forwarding. -/
def blockedReqHeaders : List String :=
  ["host", "origin", "referer", "cookie", "connection", "accept-encoding"]

/-- Upstream response header names not relayed to the client. -/
def blockedRespHeaders : List String :=
  ["content-encoding", "content-length", "access-control-allow-origin"]

/-- The value of `req.query.path` for the catch-all route: absent, an array of
segments, or a single string segment. -/
inductive QueryPath where
  | undef
  | arr (segs : List String)
  | strv (s : String)

/-- `const \x7b path = [] \x7d = req.query; Array.isArray(path) ? path.join('/') : path`. -/
def QueryPath.pathStr : QueryPath → String
  | .undef => String.intercalate "/" []
  | .arr segs => String.intercalate "/" segs
  | .strv s => s

/-- An inbound HTTP request as the handler sees it. -/
structure Request where
  method : String
  path : QueryPath
  headers : Headers
  body : ReqBody

/-- One call to `fetch` made by the handler. -/
structure FetchCall where
  url : String
  method : String
  headers : Headers
  body : Option String
  redirect : String

/-- An upstream `fetch` response; `bodyResult` models that
`upstreamResponse.arrayBuffer()` may itself throw. -/
structure UpstreamResponse where
  status : Nat
  headers : Headers
  bodyResult : Except String (List Nat)

/-- The body the handler sends to the client: `res.end()` (empty),
`res.send(Buffer)` (bytes), or `res.json(…)` (a JSON string). -/
inductive ClientBody where
  | empty
  | bytes (data : List Nat)
  | str (s : String)

/-- The observable outcome of a handler run: the upstream fetches it performed
and the response it produced. -/
structure HandlerResult where
  fetchCalls : List FetchCall
  status : Nat
  headers : Headers
  body : ClientBody

/-- The three CORS headers the handler sets first on every request. -/
def corsHeaders : Headers :=
  setHeaderNode (setHeaderNode (setHeaderNode [] "Access-Control-Allow-Origin" "*")
    "Access-Control-Allow-Methods" allowMethodsStr)
    "Access-Control-Allow-Headers" allowHeadersStr

/-- The request-header filter loop: drop blocked names (case-insensitively). -/
def filterReqHeaders (hs : Headers) : Headers :=
  hs.filter (fun kv => !(blockedReqHeaders.contains (toLowerCase kv.1)))

/-- Filtered request headers with `headers['user-agent']` forced. -/
def forwardedHeaders (hs : Headers) : Headers :=
  jsObjSet (filterReqHeaders hs) "user-agent" fixedUserAgent

/-- The relayed response headers: fold the upstream headers over the CORS
headers, skipping the blocked names, setting the rest via `res.setHeader`. -/
def relayRespHeaders (init : Headers) (ups : Headers) : Headers :=
  ups.foldl
    (fun hs kv =>
      if blockedRespHeaders.contains (toLowerCase kv.1) then hs else setHeaderNode hs kv.1 kv.2)
    init

/-- The body of `res.json (\x7b error: msg \x7d)`. -/
def jsonErrorBody (msg : String) : String :=
  jsonStringify (.obj (.cons "error" (.str msg) .nil))

/-- The `Content-Type` that `res.json` sets. -/
def jsonContentType : String := "application/json; charset=utf-8"

/-- The proxy handler, as a function of the inbound request and of the outcome
the environment gives to its single `fetch` (exception or response). -/
def handler (req : Request) (fetchResult : Except String UpstreamResponse) : HandlerResult :=
  let targetUrl := upstreamBase ++ req.path.pathStr
  if req.method == "OPTIONS" then
    { fetchCalls := [], status := 200, headers := corsHeaders, body := .empty }
  else
    let fwd := forwardedHeaders req.headers
    let body : Option String :=
      if req.method != "GET" && req.method != "HEAD" then
        if req.body.truthy then some (serializeReqBody req.body) else Option.none
      else Option.none
    let call : FetchCall :=
      { url := targetUrl, method := req.method, headers := fwd, body := body,
        redirect := "follow" }
    match fetchResult with
    | .error e =>
        { fetchCalls := [call], status := 500,
          headers := setHeaderNode corsHeaders "Content-Type" jsonContentType,
          body := .str (jsonErrorBody e) }
    | .ok up =>
        let relayed := relayRespHeaders corsHeaders up.headers
        match up.bodyResult with
        | .ok bytes =>
            { fetchCalls := [call], status := up.status, headers := relayed,
              body := .bytes bytes }
        | .error e =>
            { fetchCalls := [call], status := 500,
              headers := setHeaderNode relayed "Content-Type" jsonContentType,
              body := .str (jsonErrorBody e) }

/-- The single fetch request the handler prepares on the non-`OPTIONS` path. -/
def plannedCall (req : Request) : FetchCall :=
  { url := upstreamBase ++ req.path.pathStr, method := req.method,
    headers := forwardedHeaders req.headers,
    body :=
      if (req.method != "GET" && req.method != "HEAD") = true then
        (if req.body.truthy = true then some (serializeReqBody req.body) else Option.none)
      else Option.none,
    redirect := "follow" }

/-- The message of the exception the `try` block observes, if any:
either the `fetch` itself throws, or reading the upstream body throws. -/
def thrownError : Except String UpstreamResponse → Option String
  | .error e => some e
  | .ok up =>
      match up.bodyResult with
      | .error e => some e
      | .ok _ => Option.none

/-! ### FileService drive configuration store -/

/-- A drive configuration record. Fields absent on the JavaScript object are
modelled as `""`. -/
structure Drive where
  id : String
  name : String
  dtype : String
  url : String
  username : String
  password : String
  dpath : String
deriving DecidableEq

/-- The dynamically constructed local drive (`getDrives` always prepends it). -/
def defaultLocalDrive : Drive :=
  { id := "local", name := "Local Device", dtype := "local", url := "",
    username := "", password := "", dpath := "/" }

/-- A field-wise update object (the `updates` argument of `updateDrive`); spread
semantics: only the fields present override. -/
structure DriveUpdate where
  id : Option String
  name : Option String
  dtype : Option String
  url : Option String
  username : Option String
  password : Option String
  dpath : Option String
deriving DecidableEq

/-- JavaScript spread `\x7b ...d, ...u \x7d` on a drive record. -/
def applyUpdate (d : Drive) (u : DriveUpdate) : Drive :=
  { id := u.id.getD d.id, name := u.name.getD d.name, dtype := u.dtype.getD d.dtype,
    url := u.url.getD d.url, username := u.username.getD d.username,
    password := u.password.getD d.password, dpath := u.dpath.getD d.dpath }

/-- The persisted value at the single storage key `cloud_mgr_drives`
(`Option.none` = key absent; JSON round-tripping is modelled as the identity). -/
abbrev DriveStore := Option (List Drive)

/-- `FileService.getDrives`: the dynamic local drive followed by the saved list
(`value ? JSON.parse(value) : []`). -/
def getDrives (s : DriveStore) : List Drive :=
  defaultLocalDrive :: s.getD []

/-- `FileService.addDrive`: save the current non-local drives with the new
config appended. -/
def addDrive (s : DriveStore) (cfg : Drive) : DriveStore :=
  some ((getDrives s).filter (fun d => d.id != "local") ++ [cfg])

/-- `FileService.removeDrive`: save the drives whose id is neither the removed
one nor `local`. -/
def removeDrive (s : DriveStore) (driveId : String) : DriveStore :=
  some ((getDrives s).filter (fun d => d.id != driveId && d.id != "local"))

/-- `FileService.updateDrive`: merge `updates` into the first drive with the
given id (unless it is the local one), then save the non-local drives. -/
def updateDrive (s : DriveStore) (driveId : String) (u : DriveUpdate) : DriveStore :=
  let drives := getDrives s
  match drives.findIdx? (fun d => d.id == driveId) with
  | some i =>
      if hi : i < drives.length then
        if (drives.get ⟨i, hi⟩).id != "local" then
          some ((drives.set i (applyUpdate (drives.get ⟨i, hi⟩) u)).filter
            (fun d => d.id != "local"))
        else s
      else s
  | Option.none => s

/-- One call against the drive store. -/
inductive DriveOp where
  | add (cfg : Drive)
  | remove (driveId : String)
  | update (driveId : String) (u : DriveUpdate)

/-- Apply one `DriveOp` to the store. -/
def applyOp (s : DriveStore) : DriveOp → DriveStore
  | .add cfg => addDrive s cfg
  | .remove driveId => removeDrive s driveId
  | .update driveId u => updateDrive s driveId u

/-- Run a sequence of drive-store calls. -/
def runOps (s : DriveStore) (ops : List DriveOp) : DriveStore :=
  ops.foldl applyOp s

/-! ### FileService.move -/

/-- JavaScript `s.split('/').pop()`: the substring after the last slash. -/
def basenameJS (s : String) : String :=
  (splitOnChar s '/').getLastD ""

/-- JavaScript `s.replace(/\/+$/, '')`: drop every trailing slash. -/
def dropTrailingSlashes (s : String) : String :=
  String.mk ((s.data.reverse.dropWhile (fun c => c == '/')).reverse)

/-- One relocation request (`moveFile(src, dst)` / `Filesystem.rename`). -/
structure MoveReq where
  src : String
  dst : String
deriving DecidableEq

/-- Destination path in the WebDAV branch of `FileService.move`. -/
def webdavDest (destination item : String) : String :=
  dropTrailingSlashes destination ++ "/" ++ basenameJS item

/-- Destination path in the local branch of `FileService.move`. -/
def localDest (destination item : String) : String :=
  if destination == "/" then "/" ++ basenameJS item
  else destination ++ "/" ++ basenameJS item

/-- The relocations issued by the WebDAV branch of `FileService.move`
(one `client.moveFile` per item, dispatched by `Promise.all`). -/
def movePlanWebdav (items : List String) (destination : String) : List MoveReq :=
  items.map (fun item => { src := item, dst := webdavDest destination item })

/-- The relocations issued by the local branch of `FileService.move`
(one `Filesystem.rename` per item, dispatched by `Promise.all`). -/
def movePlanLocal (items : List String) (destination : String) : List MoveReq :=
  items.map (fun item => { src := item, dst := localDest destination item })

/-- The relocations that take effect, given each request's own outcome:
`Promise.all` runs every request; each succeeds or fails on its own. -/
def executedMoves (plan : List MoveReq) (succeeds : MoveReq → Bool) : List MoveReq :=
  plan.filter succeeds

/-! ### The sorted file listing -/

/-- A normalized file entry, restricted to the fields the comparator reads
(`mtime` as an epoch number, as `new Date(x) - new Date(y)` computes). -/
structure FileEntry where
  name : String
  isDirectory : Bool
  mtime : Int
deriving DecidableEq

/-- The sort key (`sortConfig.key`). -/
inductive SortKey where
  | name
  | date
  | dtype
deriving DecidableEq

/-- The sort direction (`sortConfig.direction`). -/
inductive SortDir where
  | asc
  | desc
deriving DecidableEq

/-- JavaScript `name.split('.').pop()`: the extension used by the `type` key. -/
def extJS (name : String) : String :=
  (splitOnChar name '.').getLastD ""

/-- The `switch (sortConfig.key)` of the comparator: the key comparison `res`
before the direction is applied. -/
def keyCmp (lc : String → String → Int) (key : SortKey) (a b : FileEntry) : Int :=
  match key with
  | .name => lc a.name b.name
  | .date => a.mtime - b.mtime
  | .dtype => lc (extJS a.name) (extJS b.name)

/-- The comparator of `sortedFiles`. `lc` models `String.prototype.localeCompare`
(negative / zero / positive). Folders always come first, and the direction flip
is applied only to the key comparison, after the folder check returned. -/
def fileCmp (lc : String → String → Int) (key : SortKey) (dir : SortDir)
    (a b : FileEntry) : Int :=
  if a.isDirectory != b.isDirectory then
    (if a.isDirectory then -1 else 1)
  else
    match dir with
    | .desc => -(keyCmp lc key a b)
    | .asc => keyCmp lc key a b

/-- `sortedFiles`: a stable sort of the listing by the comparator
(`Array.prototype.sort` is stable and consistent with the comparator). -/
def sortedFiles (lc : String → String → Int) (key : SortKey) (dir : SortDir)
    (files : List FileEntry) : List FileEntry :=
  files.mergeSort (fun a b => decide (fileCmp lc key dir a b ≤ 0))

/-! ### Lemmas about the header operations -/

theorem mem_jsObjSet {o : Headers} {k v : String} {kv : String × String}
    (h : kv ∈ jsObjSet o k v) : kv = (k, v) ∨ (kv ∈ o ∧ kv.1 ≠ k) := by
  unfold jsObjSet at h
  split at h
  · rcases List.mem_map.1 h with ⟨a, ha, hfa⟩
    by_cases hk : a.1 = k
    · left
      rw [← hfa]
      simp [hk]
    · right
      rw [← hfa]
      simp only [beq_iff_eq, hk, if_false]
      exact ⟨ha, hk⟩
  · rename_i hany
    rcases List.mem_append.1 h with h1 | h1
    · refine Or.inr ⟨h1, fun hk => ?_⟩
      exact hany (List.any_eq_true.2 ⟨kv, h1, by simp [hk]⟩)
    · left
      simpa using h1

theorem jsObjSet_self_mem (o : Headers) (k v : String) : (k, v) ∈ jsObjSet o k v := by
  unfold jsObjSet
  split
  · rename_i hany
    rcases List.any_eq_true.1 hany with ⟨a, ha, hak⟩
    refine List.mem_map.2 ⟨a, ha, ?_⟩
    simp only [beq_iff_eq] at hak
    simp [hak]
  · exact List.mem_append.2 (Or.inr (by simp))

theorem mem_setHeaderNode {hs : Headers} {k v : String} {kv : String × String}
    (h : kv ∈ setHeaderNode hs k v) :
    kv = (k, v) ∨ (kv ∈ hs ∧ toLowerCase kv.1 ≠ toLowerCase k) := by
  unfold setHeaderNode at h
  split at h
  · rcases List.mem_map.1 h with ⟨a, ha, hfa⟩
    by_cases hk : toLowerCase a.1 = toLowerCase k
    · left
      rw [← hfa]
      simp [hk]
    · right
      rw [← hfa]
      simp only [beq_iff_eq, hk, if_false]
      exact ⟨ha, hk⟩
  · rename_i hany
    rcases List.mem_append.1 h with h1 | h1
    · refine Or.inr ⟨h1, fun hk => ?_⟩
      exact hany (List.any_eq_true.2 ⟨kv, h1, by simp [hk]⟩)
    · left
      simpa using h1

theorem find?_lower_map_set (hs : Headers) (k v : String) :
    List.find? (fun kv => toLowerCase kv.1 == toLowerCase k)
      (hs.map (fun kv => if toLowerCase kv.1 == toLowerCase k then (k, v) else kv)) =
    (if hs.any (fun kv => toLowerCase kv.1 == toLowerCase k) then some (k, v)
     else Option.none) := by
  induction hs with
  | nil => rfl
  | cons a t ih =>
    cases hak : (toLowerCase a.1 == toLowerCase k) with
    | true =>
      rw [List.map_cons, if_pos hak, List.find?_cons_of_pos _ (by simp), List.any_cons, hak,
        Bool.true_or]
      rfl
    | false =>
      rw [List.map_cons, if_neg (by simp [hak]), List.find?_cons_of_neg _ (by simp [hak]),
        ih, List.any_cons, hak, Bool.false_or]

theorem find?_lower_map_set_ne (hs : Headers) (k v k' : String)
    (hne : toLowerCase k' ≠ toLowerCase k) :
    List.find? (fun kv => toLowerCase kv.1 == toLowerCase k')
      (hs.map (fun kv => if toLowerCase kv.1 == toLowerCase k then (k, v) else kv)) =
    List.find? (fun kv => toLowerCase kv.1 == toLowerCase k') hs := by
  induction hs with
  | nil => rfl
  | cons a t ih =>
    cases hak : (toLowerCase a.1 == toLowerCase k) with
    | true =>
      have hak' : toLowerCase a.1 = toLowerCase k := by simpa using hak
      rw [List.map_cons, if_pos hak,
        List.find?_cons_of_neg _ (by simp; exact fun h => hne (Eq.symm h)),
        List.find?_cons_of_neg _ (by simp [hak']; exact fun h => hne (Eq.symm h)), ih]
    | false =>
      rw [List.map_cons, if_neg (by simp [hak])]
      cases hak2 : (toLowerCase a.1 == toLowerCase k') with
      | true =>
        rw [List.find?_cons_of_pos _ (by simp [hak2]),
          List.find?_cons_of_pos _ (by simp [hak2])]
      | false =>
        rw [List.find?_cons_of_neg _ (by simp [hak2]),
          List.find?_cons_of_neg _ (by simp [hak2]), ih]

theorem lookupCI_setHeaderNode_self (hs : Headers) (k v : String) :
    lookupCI (setHeaderNode hs k v) k = some v := by
  unfold lookupCI setHeaderNode
  split
  · rename_i hany
    rw [find?_lower_map_set, if_pos hany]
    rfl
  · rename_i hany
    rw [List.find?_append]
    have h1 : List.find? (fun kv => toLowerCase kv.1 == toLowerCase k) hs = Option.none := by
      rw [List.find?_eq_none]
      intro x hx hpx
      exact hany (List.any_eq_true.2 ⟨x, hx, hpx⟩)
    rw [h1]
    simp

theorem lookupCI_setHeaderNode_ne (hs : Headers) (k v k' : String)
    (hne : toLowerCase k' ≠ toLowerCase k) :
    lookupCI (setHeaderNode hs k v) k' = lookupCI hs k' := by
  unfold lookupCI setHeaderNode
  split
  · rw [find?_lower_map_set_ne hs k v k' hne]
  · rw [List.find?_append]
    have h2 : List.find? (fun kv => toLowerCase kv.1 == toLowerCase k') [(k, v)] =
        Option.none := by
      simp
      exact fun h => hne (Eq.symm h)
    rw [h2]
    simp

theorem relayRespHeaders_cons (init : Headers) (a : String × String) (t : Headers) :
    relayRespHeaders init (a :: t) =
    relayRespHeaders
      (if blockedRespHeaders.contains (toLowerCase a.1) then init
       else setHeaderNode init a.1 a.2) t := rfl

theorem lookupCI_relay_skip (ups : Headers) (init : Headers) (k0 : String)
    (h : ∀ kv ∈ ups, blockedRespHeaders.contains (toLowerCase kv.1) = true ∨
      toLowerCase kv.1 ≠ toLowerCase k0) :
    lookupCI (relayRespHeaders init ups) k0 = lookupCI init k0 := by
  induction ups generalizing init with
  | nil => rfl
  | cons a t ih =>
    rw [relayRespHeaders_cons]
    have htail : ∀ kv ∈ t, blockedRespHeaders.contains (toLowerCase kv.1) = true ∨
        toLowerCase kv.1 ≠ toLowerCase k0 := fun kv hkv => h kv (by simp [hkv])
    by_cases hb : blockedRespHeaders.contains (toLowerCase a.1) = true
    · rw [if_pos hb]
      exact ih init htail
    · rw [if_neg hb]
      rw [ih _ htail]
      rcases h a (by simp) with hb' | hne
      · exact absurd hb' hb
      · exact lookupCI_setHeaderNode_ne init a.1 a.2 k0 (fun heq => hne heq.symm)

theorem lookupCI_relay_mem (ups : Headers) (init : Headers) (k v : String)
    (hmem : (k, v) ∈ ups)
    (hnb : blockedRespHeaders.contains (toLowerCase k) = false)
    (hnd : (ups.map (fun kv => toLowerCase kv.1)).Nodup) :
    lookupCI (relayRespHeaders init ups) k = some v := by
  induction ups generalizing init with
  | nil => cases hmem
  | cons a t ih =>
    rw [relayRespHeaders_cons]
    have hnd' : toLowerCase a.1 ∉ List.map (fun kv => toLowerCase kv.1) t ∧
        (List.map (fun kv => toLowerCase kv.1) t).Nodup := by
      rw [List.map_cons] at hnd
      exact List.nodup_cons.1 hnd
    rcases hnd' with ⟨hnotin, hndt⟩
    rcases List.mem_cons.1 hmem with rfl | hmem'
    · rw [if_neg (by simpa using hnb)]
      have hskip : ∀ kv ∈ t, blockedRespHeaders.contains (toLowerCase kv.1) = true ∨
          toLowerCase kv.1 ≠ toLowerCase k := by
        intro kv hkv
        refine Or.inr fun heq' => hnotin ?_
        exact List.mem_map.2 ⟨kv, hkv, heq'⟩
      rw [lookupCI_relay_skip t _ k hskip]
      exact lookupCI_setHeaderNode_self init k v
    · by_cases hb : blockedRespHeaders.contains (toLowerCase a.1) = true
      · rw [if_pos hb]
        exact ih init hmem' hndt
      · rw [if_neg hb]
        exact ih _ hmem' hndt

/-! ### Properties of the forwarded request headers -/

theorem forwardedHeaders_spec (hs0 : Headers)
    (hlow : ∀ kv ∈ hs0, toLowerCase kv.1 = kv.1) :
    (∀ kv ∈ forwardedHeaders hs0, blockedReqHeaders.contains (toLowerCase kv.1) = false) ∧
    (∀ kv ∈ forwardedHeaders hs0,
      toLowerCase kv.1 = "user-agent" → kv = ("user-agent", fixedUserAgent)) ∧
    ("user-agent", fixedUserAgent) ∈ forwardedHeaders hs0 := by
  refine ⟨?_, ?_, jsObjSet_self_mem _ _ _⟩
  · intro kv hkv
    rcases mem_jsObjSet hkv with rfl | ⟨hmem, _⟩
    · rfl
    · rcases List.mem_filter.1 hmem with ⟨_, hp⟩
      simpa using hp
  · intro kv hkv hua
    rcases mem_jsObjSet hkv with rfl | ⟨hmem, hne⟩
    · rfl
    · rcases List.mem_filter.1 hmem with ⟨hmem0, _⟩
      exact absurd ((hlow kv hmem0).symm.trans hua) hne

/-! ### Branch equations for the handler -/

theorem handler_options_eq (req : Request) (fr : Except String UpstreamResponse)
    (hm : (req.method == "OPTIONS") = true) :
    handler req fr =
      { fetchCalls := [], status := 200, headers := corsHeaders, body := .empty } := by
  unfold handler
  rw [if_pos hm]

theorem handler_fetch_error_eq (req : Request) (e : String)
    (hm : (req.method == "OPTIONS") = false) :
    handler req (.error e) =
      { fetchCalls := [plannedCall req], status := 500,
        headers := setHeaderNode corsHeaders "Content-Type" jsonContentType,
        body := .str (jsonErrorBody e) } := by
  unfold handler
  rw [if_neg (by simp [hm])]
  rfl

theorem handler_ok_ok_eq (req : Request) (st : Nat) (uhs : Headers) (bytes : List Nat)
    (hm : (req.method == "OPTIONS") = false) :
    handler req (.ok { status := st, headers := uhs, bodyResult := .ok bytes }) =
      { fetchCalls := [plannedCall req], status := st,
        headers := relayRespHeaders corsHeaders uhs,
        body := .bytes bytes } := by
  unfold handler
  rw [if_neg (by simp [hm])]
  rfl

theorem handler_body_error_eq (req : Request) (st : Nat) (uhs : Headers) (e : String)
    (hm : (req.method == "OPTIONS") = false) :
    handler req (.ok { status := st, headers := uhs, bodyResult := .error e }) =
      { fetchCalls := [plannedCall req], status := 500,
        headers := setHeaderNode (relayRespHeaders corsHeaders uhs) "Content-Type"
          jsonContentType,
        body := .str (jsonErrorBody e) } := by
  unfold handler
  rw [if_neg (by simp [hm])]
  rfl

theorem relay_skip_of_blocked (uhs : Headers) (k0 : String)
    (hb : blockedRespHeaders.contains (toLowerCase k0) = true) :
    lookupCI (relayRespHeaders corsHeaders uhs) k0 = lookupCI corsHeaders k0 := by
  apply lookupCI_relay_skip
  intro kv hkv
  by_cases hc : blockedRespHeaders.contains (toLowerCase kv.1) = true
  · exact Or.inl hc
  · exact Or.inr fun heq => hc (by rw [heq]; exact hb)

/-! ### Claim theorems for the proxy -/

/-- C1: for every inbound request whose method is not `OPTIONS`, the handler
performs exactly one upstream fetch, with the same method, to the URL obtained
by appending the `/`-joined path segments to the fixed upstream base. -/
theorem proxy_forwards_one_request_same_method_joined_url
    (req : Request) (fr : Except String UpstreamResponse) (segs : List String)
    (hm : req.method ≠ "OPTIONS") (hp : req.path = QueryPath.arr segs) :
    ∃ c : FetchCall, (handler req fr).fetchCalls = [c] ∧ c.method = req.method ∧
      c.url = "https://dav.jianguoyun.com/dav/" ++ String.intercalate "/" segs := by
  unfold handler
  rw [if_neg (by simp [hm])]
  have hurl : upstreamBase ++ req.path.pathStr =
      "https://dav.jianguoyun.com/dav/" ++ String.intercalate "/" segs := by
    rw [hp]
    rfl
  cases fr with
  | error e => exact ⟨_, rfl, rfl, hurl⟩
  | ok up =>
    rcases up with ⟨st, uhs, br⟩
    cases br with
    | ok bytes => exact ⟨_, rfl, rfl, hurl⟩
    | error e => exact ⟨_, rfl, rfl, hurl⟩

/-- Witness for C1 at a concrete `PUT /api/proxy/docs/note.txt` request. -/
theorem proxy_forwards_one_request_same_method_joined_url_witness :
    (("PUT" : String) ≠ "OPTIONS") ∧
    (∃ c : FetchCall,
      (handler
        { method := "PUT", path := .arr ["docs", "note.txt"], headers := [],
          body := .str "hello" }
        (.ok { status := 201, headers := [], bodyResult := .ok [] })).fetchCalls = [c] ∧
      c.method = "PUT" ∧
      c.url = "https://dav.jianguoyun.com/dav/" ++ String.intercalate "/" ["docs", "note.txt"]) :=
  ⟨by decide,
    proxy_forwards_one_request_same_method_joined_url _ _ ["docs", "note.txt"]
      (by decide) rfl⟩

/-- C2: every `OPTIONS` request receives status 200, an empty body, and exactly
the three fixed CORS headers, and no upstream fetch is made. -/
theorem options_preflight_fixed_response
    (req : Request) (fr : Except String UpstreamResponse)
    (hm : req.method = "OPTIONS") :
    handler req fr =
      { fetchCalls := [], status := 200,
        headers := [("Access-Control-Allow-Origin", "*"),
          ("Access-Control-Allow-Methods", allowMethodsStr),
          ("Access-Control-Allow-Headers", allowHeadersStr)],
        body := ClientBody.empty } := by
  unfold handler
  rw [if_pos (by simp [hm])]
  rfl

/-- Witness for C2 at a concrete `OPTIONS` request whose fetch would fail. -/
theorem options_preflight_fixed_response_witness :
    (("OPTIONS" : String) = "OPTIONS") ∧
    handler
      { method := "OPTIONS", path := .arr ["any", "path"], headers := [("origin", "x")],
        body := .none } (.error "unreachable") =
      { fetchCalls := [], status := 200,
        headers := [("Access-Control-Allow-Origin", "*"),
          ("Access-Control-Allow-Methods", allowMethodsStr),
          ("Access-Control-Allow-Headers", allowHeadersStr)],
        body := ClientBody.empty } :=
  ⟨rfl, options_preflight_fixed_response _ _ rfl⟩

/-- C3: in every upstream fetch the handler makes, no blocked request-header
name survives (case-insensitively), and the `user-agent` entry is exactly the
fixed compatibility string, whatever the inbound headers were (Node delivers
inbound header names lower-cased, the `hlow` hypothesis). -/
theorem forwarded_headers_blocklist_and_user_agent
    (req : Request) (fr : Except String UpstreamResponse)
    (hlow : ∀ kv ∈ req.headers, toLowerCase kv.1 = kv.1) :
    ∀ c ∈ (handler req fr).fetchCalls,
      (∀ kv ∈ c.headers, blockedReqHeaders.contains (toLowerCase kv.1) = false) ∧
      (∀ kv ∈ c.headers,
        toLowerCase kv.1 = "user-agent" → kv = ("user-agent", fixedUserAgent)) ∧
      ("user-agent", fixedUserAgent) ∈ c.headers := by
  intro c hc
  unfold handler at hc
  by_cases hm : (req.method == "OPTIONS") = true
  · rw [if_pos hm] at hc
    simp at hc
  · rw [if_neg hm] at hc
    have hc2 : c.headers = forwardedHeaders req.headers := by
      cases fr with
      | error e =>
        simp at hc
        rw [hc]
      | ok up =>
        rcases up with ⟨st, uhs, br⟩
        cases br with
        | ok bytes =>
          simp at hc
          rw [hc]
        | error e =>
          simp at hc
          rw [hc]
    rw [hc2]
    exact forwardedHeaders_spec req.headers hlow

/-- Witness for C3 at a concrete request carrying blocked headers and a
browser user-agent. -/
theorem forwarded_headers_blocklist_and_user_agent_witness :
    (∀ kv ∈ ([("host", "evil"), ("cookie", "session"), ("authorization", "Basic x"),
        ("user-agent", "Mozilla/5.0")] : Headers), toLowerCase kv.1 = kv.1) ∧
    (∀ c ∈ (handler
        { method := "PROPFIND", path := .arr [],
          headers := [("host", "evil"), ("cookie", "session"), ("authorization", "Basic x"),
            ("user-agent", "Mozilla/5.0")],
          body := .none }
        (.error "net")).fetchCalls,
      (∀ kv ∈ c.headers, blockedReqHeaders.contains (toLowerCase kv.1) = false) ∧
      (∀ kv ∈ c.headers,
        toLowerCase kv.1 = "user-agent" → kv = ("user-agent", fixedUserAgent)) ∧
      ("user-agent", fixedUserAgent) ∈ c.headers) :=
  ⟨by decide, forwarded_headers_blocklist_and_user_agent _ _ (by decide)⟩

/-- C4: for every upstream response the handler relays (fetch succeeded and the
body read succeeded), the client status equals the upstream status, the blocked
response-header names do not survive (the CORS origin is the proxy's own `*`),
and every other upstream header is present with its value unchanged. Upstream
header names arrive from the fetch API with pairwise distinct lower-casings
(`hnd`). -/
theorem relayed_response_mirrors_upstream
    (req : Request) (up : UpstreamResponse) (bytes : List Nat)
    (hm : req.method ≠ "OPTIONS")
    (hbody : up.bodyResult = Except.ok bytes)
    (hnd : (up.headers.map (fun kv => toLowerCase kv.1)).Nodup) :
    (handler req (.ok up)).status = up.status ∧
    (handler req (.ok up)).body = ClientBody.bytes bytes ∧
    lookupCI (handler req (.ok up)).headers "content-encoding" = Option.none ∧
    lookupCI (handler req (.ok up)).headers "content-length" = Option.none ∧
    lookupCI (handler req (.ok up)).headers "access-control-allow-origin" = some "*" ∧
    (∀ kv ∈ up.headers, blockedRespHeaders.contains (toLowerCase kv.1) = false →
      lookupCI (handler req (.ok up)).headers kv.1 = some kv.2) := by
  rcases up with ⟨st, uhs, br⟩
  have hbr : br = Except.ok bytes := hbody
  subst hbr
  have hmb : (req.method == "OPTIONS") = false := by simp [hm]
  rw [handler_ok_ok_eq req st uhs bytes hmb]
  have hnd' : (uhs.map (fun kv => toLowerCase kv.1)).Nodup := hnd
  refine ⟨rfl, rfl, ?_, ?_, ?_, ?_⟩
  · show lookupCI (relayRespHeaders corsHeaders uhs) "content-encoding" = Option.none
    rw [relay_skip_of_blocked uhs "content-encoding" rfl]
    rfl
  · show lookupCI (relayRespHeaders corsHeaders uhs) "content-length" = Option.none
    rw [relay_skip_of_blocked uhs "content-length" rfl]
    rfl
  · show lookupCI (relayRespHeaders corsHeaders uhs) "access-control-allow-origin" = some "*"
    rw [relay_skip_of_blocked uhs "access-control-allow-origin" rfl]
    rfl
  · intro kv hkv hnb
    show lookupCI (relayRespHeaders corsHeaders uhs) kv.1 = some kv.2
    exact lookupCI_relay_mem uhs corsHeaders kv.1 kv.2 hkv hnb hnd'

/-- Witness for C4 at a concrete relayed `207` response carrying blocked and
passthrough headers. -/
theorem relayed_response_mirrors_upstream_witness :
    (("PROPFIND" : String) ≠ "OPTIONS") ∧
    ((handler { method := "PROPFIND", path := .arr ["d"], headers := [], body := .none }
        (.ok { status := 207, headers := [("content-length", "88"), ("etag", "abc"), ("content-type", "text/xml")], bodyResult := .ok [60, 62] })).status = 207 ∧
      (handler { method := "PROPFIND", path := .arr ["d"], headers := [], body := .none }
        (.ok { status := 207, headers := [("content-length", "88"), ("etag", "abc"), ("content-type", "text/xml")], bodyResult := .ok [60, 62] })).body = ClientBody.bytes [60, 62] ∧
      lookupCI (handler { method := "PROPFIND", path := .arr ["d"], headers := [], body := .none }
        (.ok { status := 207, headers := [("content-length", "88"), ("etag", "abc"), ("content-type", "text/xml")], bodyResult := .ok [60, 62] })).headers "content-encoding" = Option.none ∧
      lookupCI (handler { method := "PROPFIND", path := .arr ["d"], headers := [], body := .none }
        (.ok { status := 207, headers := [("content-length", "88"), ("etag", "abc"), ("content-type", "text/xml")], bodyResult := .ok [60, 62] })).headers "content-length" = Option.none ∧
      lookupCI (handler { method := "PROPFIND", path := .arr ["d"], headers := [], body := .none }
        (.ok { status := 207, headers := [("content-length", "88"), ("etag", "abc"), ("content-type", "text/xml")], bodyResult := .ok [60, 62] })).headers "access-control-allow-origin" = some "*" ∧
      (∀ kv ∈ ([("content-length", "88"), ("etag", "abc"), ("content-type", "text/xml")] : Headers),
        blockedRespHeaders.contains (toLowerCase kv.1) = false →
        lookupCI (handler { method := "PROPFIND", path := .arr ["d"], headers := [], body := .none }
          (.ok { status := 207, headers := [("content-length", "88"), ("etag", "abc"), ("content-type", "text/xml")], bodyResult := .ok [60, 62] })).headers kv.1 = some kv.2)) :=
  ⟨by decide,
    relayed_response_mirrors_upstream _ _ [60, 62] (by decide) rfl (by decide)⟩

/-- C6 counterexample: an upstream header named `access-control-allow-methods`
replaces the fixed allow-list on the relayed response, so the response does not
carry the fixed `Access-Control-Allow-Methods` value. -/
theorem cors_allowlists_not_always_fixed :
    lookupCI (handler { method := "GET", path := .arr ["x"], headers := [], body := .none }
        (.ok { status := 200, headers := [("access-control-allow-methods", "NONE")], bodyResult := .ok [] })).headers "Access-Control-Allow-Methods" = some "NONE" ∧
    some "NONE" ≠ some allowMethodsStr :=
  ⟨rfl, by decide⟩

/-- C6 (amended): every response carries `Access-Control-Allow-Origin` `*`
unconditionally — an upstream `access-control-allow-origin` never replaces it.
The fixed method/header allow-lists are carried on `OPTIONS` responses, on
fetch-error responses, and on relayed responses whenever the upstream response
itself carries no header of the same (case-insensitive) name; an upstream
header of that name replaces them. -/
theorem cors_origin_always_star_allowlists_default
    (req : Request) (fr : Except String UpstreamResponse) :
    lookupCI (handler req fr).headers "Access-Control-Allow-Origin" = some "*" ∧
    (req.method = "OPTIONS" →
      lookupCI (handler req fr).headers "Access-Control-Allow-Methods" = some allowMethodsStr ∧
      lookupCI (handler req fr).headers "Access-Control-Allow-Headers" = some allowHeadersStr) ∧
    (∀ e, fr = .error e →
      lookupCI (handler req fr).headers "Access-Control-Allow-Methods" = some allowMethodsStr ∧
      lookupCI (handler req fr).headers "Access-Control-Allow-Headers" = some allowHeadersStr) ∧
    (∀ up, fr = .ok up →
      ((∀ kv ∈ up.headers, toLowerCase kv.1 ≠ "access-control-allow-methods") →
        lookupCI (handler req fr).headers "Access-Control-Allow-Methods" =
          some allowMethodsStr) ∧
      ((∀ kv ∈ up.headers, toLowerCase kv.1 ≠ "access-control-allow-headers") →
        lookupCI (handler req fr).headers "Access-Control-Allow-Headers" =
          some allowHeadersStr)) := by
  by_cases hm : (req.method == "OPTIONS") = true
  · rw [handler_options_eq req fr hm]
    exact ⟨rfl, fun _ => ⟨rfl, rfl⟩, fun _ _ => ⟨rfl, rfl⟩, fun _ _ => ⟨fun _ => rfl, fun _ => rfl⟩⟩
  · have hmb : (req.method == "OPTIONS") = false := by
      cases h : (req.method == "OPTIONS") with
      | true => exact absurd h hm
      | false => rfl
    have hmne : req.method ≠ "OPTIONS" := by simpa using hmb
    refine ⟨?_, fun hopt => absurd hopt hmne, ?_, ?_⟩
    · -- Access-Control-Allow-Origin is blocked on relay and survives as `*`
      cases fr with
      | error e =>
        rw [handler_fetch_error_eq req e hmb]
        show lookupCI (setHeaderNode corsHeaders "Content-Type" jsonContentType)
          "Access-Control-Allow-Origin" = some "*"
        rw [lookupCI_setHeaderNode_ne _ _ _ _ (by decide)]
        rfl
      | ok up =>
        rcases up with ⟨st, uhs, br⟩
        cases br with
        | ok bytes =>
          rw [handler_ok_ok_eq req st uhs bytes hmb]
          show lookupCI (relayRespHeaders corsHeaders uhs) "Access-Control-Allow-Origin" =
            some "*"
          rw [relay_skip_of_blocked uhs "Access-Control-Allow-Origin" rfl]
          rfl
        | error e =>
          rw [handler_body_error_eq req st uhs e hmb]
          show lookupCI (setHeaderNode (relayRespHeaders corsHeaders uhs) "Content-Type"
            jsonContentType) "Access-Control-Allow-Origin" = some "*"
          rw [lookupCI_setHeaderNode_ne _ _ _ _ (by decide),
            relay_skip_of_blocked uhs "Access-Control-Allow-Origin" rfl]
          rfl
    · intro e hfr
      subst hfr
      rw [handler_fetch_error_eq req e hmb]
      constructor
      · show lookupCI (setHeaderNode corsHeaders "Content-Type" jsonContentType)
          "Access-Control-Allow-Methods" = some allowMethodsStr
        rw [lookupCI_setHeaderNode_ne _ _ _ _ (by decide)]
        rfl
      · show lookupCI (setHeaderNode corsHeaders "Content-Type" jsonContentType)
          "Access-Control-Allow-Headers" = some allowHeadersStr
        rw [lookupCI_setHeaderNode_ne _ _ _ _ (by decide)]
        rfl
    · intro up hfr
      subst hfr
      rcases up with ⟨st, uhs, br⟩
      constructor
      · intro hno
        have hno' : ∀ kv ∈ uhs, toLowerCase kv.1 ≠ "access-control-allow-methods" := hno
        have hskip : lookupCI (relayRespHeaders corsHeaders uhs)
            "Access-Control-Allow-Methods" = some allowMethodsStr := by
          rw [lookupCI_relay_skip uhs _ "Access-Control-Allow-Methods"
            (fun kv hkv => Or.inr (fun heq => hno' kv hkv heq))]
          rfl
        cases br with
        | ok bytes =>
          rw [handler_ok_ok_eq req st uhs bytes hmb]
          exact hskip
        | error e =>
          rw [handler_body_error_eq req st uhs e hmb]
          show lookupCI (setHeaderNode (relayRespHeaders corsHeaders uhs) "Content-Type"
            jsonContentType) "Access-Control-Allow-Methods" = some allowMethodsStr
          rw [lookupCI_setHeaderNode_ne _ _ _ _ (by decide)]
          exact hskip
      · intro hno
        have hno' : ∀ kv ∈ uhs, toLowerCase kv.1 ≠ "access-control-allow-headers" := hno
        have hskip : lookupCI (relayRespHeaders corsHeaders uhs)
            "Access-Control-Allow-Headers" = some allowHeadersStr := by
          rw [lookupCI_relay_skip uhs _ "Access-Control-Allow-Headers"
            (fun kv hkv => Or.inr (fun heq => hno' kv hkv heq))]
          rfl
        cases br with
        | ok bytes =>
          rw [handler_ok_ok_eq req st uhs bytes hmb]
          exact hskip
        | error e =>
          rw [handler_body_error_eq req st uhs e hmb]
          show lookupCI (setHeaderNode (relayRespHeaders corsHeaders uhs) "Content-Type"
            jsonContentType) "Access-Control-Allow-Headers" = some allowHeadersStr
          rw [lookupCI_setHeaderNode_ne _ _ _ _ (by decide)]
          exact hskip

/-- Witness for the amended C6 at a concrete relayed response. -/
theorem cors_origin_always_star_allowlists_default_witness :
    lookupCI (handler { method := "GET", path := .arr ["y"], headers := [], body := .none }
        (.ok { status := 200, headers := [("access-control-allow-origin", "https://evil")], bodyResult := .ok [] })).headers "Access-Control-Allow-Origin" = some "*" ∧
    ((("GET" : String) = "OPTIONS") →
      lookupCI (handler { method := "GET", path := .arr ["y"], headers := [], body := .none }
        (.ok { status := 200, headers := [("access-control-allow-origin", "https://evil")], bodyResult := .ok [] })).headers "Access-Control-Allow-Methods" = some allowMethodsStr ∧
      lookupCI (handler { method := "GET", path := .arr ["y"], headers := [], body := .none }
        (.ok { status := 200, headers := [("access-control-allow-origin", "https://evil")], bodyResult := .ok [] })).headers "Access-Control-Allow-Headers" = some allowHeadersStr) ∧
    (∀ e, (Except.ok { status := 200, headers := [("access-control-allow-origin", "https://evil")], bodyResult := Except.ok [] } : Except String UpstreamResponse) = .error e →
      lookupCI (handler { method := "GET", path := .arr ["y"], headers := [], body := .none }
        (.ok { status := 200, headers := [("access-control-allow-origin", "https://evil")], bodyResult := .ok [] })).headers "Access-Control-Allow-Methods" = some allowMethodsStr ∧
      lookupCI (handler { method := "GET", path := .arr ["y"], headers := [], body := .none }
        (.ok { status := 200, headers := [("access-control-allow-origin", "https://evil")], bodyResult := .ok [] })).headers "Access-Control-Allow-Headers" = some allowHeadersStr) ∧
    (∀ up, (Except.ok { status := 200, headers := [("access-control-allow-origin", "https://evil")], bodyResult := Except.ok [] } : Except String UpstreamResponse) = .ok up →
      ((∀ kv ∈ up.headers, toLowerCase kv.1 ≠ "access-control-allow-methods") →
        lookupCI (handler { method := "GET", path := .arr ["y"], headers := [], body := .none }
          (.ok { status := 200, headers := [("access-control-allow-origin", "https://evil")], bodyResult := .ok [] })).headers "Access-Control-Allow-Methods" =
          some allowMethodsStr) ∧
      ((∀ kv ∈ up.headers, toLowerCase kv.1 ≠ "access-control-allow-headers") →
        lookupCI (handler { method := "GET", path := .arr ["y"], headers := [], body := .none }
          (.ok { status := 200, headers := [("access-control-allow-origin", "https://evil")], bodyResult := .ok [] })).headers "Access-Control-Allow-Headers" =
          some allowHeadersStr)) :=
  cors_origin_always_star_allowlists_default
    { method := "GET", path := .arr ["y"], headers := [], body := .none }
    (.ok { status := 200, headers := [("access-control-allow-origin", "https://evil")], bodyResult := .ok [] })

/-- C5: whenever the fetch or the body read throws, the handler responds with
status 500 and the JSON error body carrying the exception's message. -/
theorem proxy_error_responds_500_json
    (req : Request) (fr : Except String UpstreamResponse) (e : String)
    (hm : req.method ≠ "OPTIONS") (he : thrownError fr = some e) :
    (handler req fr).status = 500 ∧
    (handler req fr).body = ClientBody.str (jsonErrorBody e) ∧
    lookupCI (handler req fr).headers "Content-Type" = some jsonContentType := by
  unfold handler
  rw [if_neg (by simp [hm])]
  cases fr with
  | error e' =>
    have he' : e' = e := by simpa [thrownError] using he
    subst he'
    refine ⟨rfl, rfl, ?_⟩
    show lookupCI (setHeaderNode corsHeaders "Content-Type" jsonContentType)
      "Content-Type" = some jsonContentType
    exact lookupCI_setHeaderNode_self _ _ _
  | ok up =>
    rcases up with ⟨st, uhs, br⟩
    cases br with
    | ok bytes => simp [thrownError] at he
    | error e' =>
      have he' : e' = e := by simpa [thrownError] using he
      subst he'
      refine ⟨rfl, rfl, ?_⟩
      show lookupCI (setHeaderNode (relayRespHeaders corsHeaders uhs) "Content-Type"
        jsonContentType) "Content-Type" = some jsonContentType
      exact lookupCI_setHeaderNode_self _ _ _

/-- Witness for C5 at a concrete request whose fetch throws. -/
theorem proxy_error_responds_500_json_witness :
    (("GET" : String) ≠ "OPTIONS") ∧
    (thrownError (.error "network down") = some "network down") ∧
    ((handler { method := "GET", path := .arr ["a"], headers := [], body := .none }
        (.error "network down")).status = 500 ∧
      (handler { method := "GET", path := .arr ["a"], headers := [], body := .none }
        (.error "network down")).body = ClientBody.str (jsonErrorBody "network down") ∧
      lookupCI (handler { method := "GET", path := .arr ["a"], headers := [], body := .none }
        (.error "network down")).headers "Content-Type" = some jsonContentType) :=
  ⟨by decide, rfl,
    proxy_error_responds_500_json _ _ "network down" (by decide) rfl⟩

/-- C9 (code evaluation at the failing input): a `Buffer` body has JavaScript
`typeof` `"object"`, so the handler `JSON.stringify`s it — the forwarded body
is the JSON text of `Buffer.toJSON()`, not the buffer passed through as-is;
for comparison, a string body passes unchanged, a parsed JSON object is
stringified, and `GET` forwards no body even when one is present. -/
theorem buffer_body_is_stringified_not_passed :
    (handler { method := "PUT", path := .arr ["f.bin"], headers := [], body := .buf [104, 105] }
      (.ok { status := 201, headers := [], bodyResult := .ok [] })).fetchCalls.map
      (fun c => c.body) = [some "\x7b\"type\":\"Buffer\",\"data\":[104,105]\x7d"] ∧
    (handler { method := "PUT", path := .arr ["f.txt"], headers := [], body := .str "hello" }
      (.ok { status := 201, headers := [], bodyResult := .ok [] })).fetchCalls.map
      (fun c => c.body) = [some "hello"] ∧
    (handler { method := "PUT", path := .arr ["f.txt"], headers := [], body := .obj (.obj (.cons "a" (.num 1) .nil)) }
      (.ok { status := 201, headers := [], bodyResult := .ok [] })).fetchCalls.map
      (fun c => c.body) = [some "\x7b\"a\":1\x7d"] ∧
    (handler { method := "GET", path := .arr ["f.txt"], headers := [], body := .str "x" }
      (.ok { status := 200, headers := [], bodyResult := .ok [] })).fetchCalls.map
      (fun c => c.body) = [Option.none] ∧
    (handler { method := "PUT", path := .arr ["f.txt"], headers := [], body := .str "" }
      (.ok { status := 201, headers := [], bodyResult := .ok [] })).fetchCalls.map
      (fun c => c.body) = [Option.none] :=
  ⟨rfl, rfl, rfl, rfl, rfl⟩

/-! ### Claim theorems for the drive store -/

theorem applyOp_no_local (s : DriveStore) (op : DriveOp)
    (hop : ∀ cfg, op = DriveOp.add cfg → cfg.id ≠ "local")
    (hs : ∀ d ∈ s.getD [], d.id ≠ "local") :
    ∀ d ∈ (applyOp s op).getD [], d.id ≠ "local" := by
  cases op with
  | add cfg =>
    intro d hd
    simp only [applyOp, addDrive, Option.getD_some] at hd
    rcases List.mem_append.1 hd with h1 | h1
    · rcases List.mem_filter.1 h1 with ⟨_, hp⟩
      simpa using hp
    · have hdc : d = cfg := by simpa using h1
      rw [hdc]
      exact hop cfg rfl
  | remove driveId =>
    intro d hd
    simp only [applyOp, removeDrive, Option.getD_some] at hd
    rcases List.mem_filter.1 hd with ⟨_, hp⟩
    simp at hp
    exact hp.2
  | update driveId u =>
    intro d hd
    simp only [applyOp, updateDrive] at hd
    split at hd
    · split at hd
      · split at hd
        · simp only [Option.getD_some] at hd
          rcases List.mem_filter.1 hd with ⟨_, hp⟩
          simpa using hp
        · exact hs d hd
      · exact hs d hd
    · exact hs d hd

theorem runOps_no_local (ops : List DriveOp) (s : DriveStore)
    (hadd : ∀ cfg, DriveOp.add cfg ∈ ops → cfg.id ≠ "local")
    (hs : ∀ d ∈ s.getD [], d.id ≠ "local") :
    ∀ d ∈ (runOps s ops).getD [], d.id ≠ "local" := by
  induction ops generalizing s with
  | nil => exact hs
  | cons op rest ih =>
    have h1 : ∀ d ∈ (applyOp s op).getD [], d.id ≠ "local" :=
      applyOp_no_local s op
        (fun cfg heq => hadd cfg (by rw [heq]; exact List.mem_cons_self _ _)) hs
    exact ih _ (fun cfg hmem => hadd cfg (List.mem_cons_of_mem _ hmem)) h1

/-- C7 counterexample: `addDrive` appends the given configuration without
checking its id, so a single `addDrive` call with id `local` puts an entry
with id `local` into the persisted list. -/
theorem drive_store_local_leak :
    ((runOps Option.none
      [DriveOp.add { id := "local", name := "Injected", dtype := "webdav", url := "", username := "", password := "", dpath := "" }]).getD []).any
      (fun d => d.id == "local") = true := by decide

/-- C7 (amended): provided no `addDrive` call passes a configuration whose id
is `local`, the persisted list never holds an entry with id `local` after any
sequence of add/remove/update calls from empty storage, and `getDrives` always
returns the dynamic local drive followed by exactly the saved drives. -/
theorem drive_store_no_local_and_getDrives
    (ops : List DriveOp)
    (hadd : ∀ cfg, DriveOp.add cfg ∈ ops → cfg.id ≠ "local") :
    (∀ d ∈ (runOps Option.none ops).getD [], d.id ≠ "local") ∧
    getDrives (runOps Option.none ops) =
      defaultLocalDrive :: (runOps Option.none ops).getD [] :=
  ⟨runOps_no_local ops Option.none hadd
    (fun d hd => absurd hd (List.not_mem_nil d)), rfl⟩

/-- Witness for the amended C7 on a concrete call sequence. -/
theorem drive_store_no_local_and_getDrives_witness :
    (∀ cfg, DriveOp.add cfg ∈
      [DriveOp.add { id := "jgy", name := "Jianguoyun", dtype := "webdav", url := "https://dav.jianguoyun.com/dav/", username := "u", password := "p", dpath := "" },
       DriveOp.remove "gone"] → cfg.id ≠ "local") ∧
    ((∀ d ∈ (runOps Option.none
      [DriveOp.add { id := "jgy", name := "Jianguoyun", dtype := "webdav", url := "https://dav.jianguoyun.com/dav/", username := "u", password := "p", dpath := "" },
       DriveOp.remove "gone"]).getD [], d.id ≠ "local") ∧
    getDrives (runOps Option.none
      [DriveOp.add { id := "jgy", name := "Jianguoyun", dtype := "webdav", url := "https://dav.jianguoyun.com/dav/", username := "u", password := "p", dpath := "" },
       DriveOp.remove "gone"]) =
      defaultLocalDrive :: (runOps Option.none
      [DriveOp.add { id := "jgy", name := "Jianguoyun", dtype := "webdav", url := "https://dav.jianguoyun.com/dav/", username := "u", password := "p", dpath := "" },
       DriveOp.remove "gone"]).getD []) :=
  ⟨by intro cfg h; simp at h; rw [h]; decide,
    drive_store_no_local_and_getDrives _ (by intro cfg h; simp at h; rw [h]; decide)⟩

/-! ### Claim theorem for FileService.move -/

/-- C8: `FileService.move` issues exactly one relocation per item, in order,
sending each item to the destination joined with the item's basename (its last
`/`-segment), in both the WebDAV and the local branch; and execution is
per-item independent — an item is relocated exactly when its own request
succeeds, regardless of the other items' outcomes, with no rollback. -/
theorem move_relocates_each_item_independently
    (items : List String) (destination : String) (hne : items ≠ []) :
    (movePlanWebdav items destination).length = items.length ∧
    (movePlanLocal items destination).length = items.length ∧
    (∀ i : Nat, (movePlanWebdav items destination)[i]? =
      (items[i]?).map (fun item =>
        { src := item, dst := dropTrailingSlashes destination ++ "/" ++ basenameJS item })) ∧
    (∀ i : Nat, (movePlanLocal items destination)[i]? =
      (items[i]?).map (fun item =>
        { src := item,
          dst := if destination == "/" then "/" ++ basenameJS item
            else destination ++ "/" ++ basenameJS item })) ∧
    (∀ succeeds : MoveReq → Bool, ∀ r ∈ movePlanWebdav items destination,
      (r ∈ executedMoves (movePlanWebdav items destination) succeeds ↔ succeeds r = true)) ∧
    (∀ succeeds : MoveReq → Bool, ∀ r ∈ movePlanLocal items destination,
      (r ∈ executedMoves (movePlanLocal items destination) succeeds ↔ succeeds r = true)) := by
  refine ⟨by simp [movePlanWebdav], by simp [movePlanLocal], ?_, ?_, ?_, ?_⟩
  · intro i
    simp [movePlanWebdav, webdavDest]
  · intro i
    simp [movePlanLocal, localDest]
  · intro succeeds r hr
    simp [executedMoves, List.mem_filter, hr]
  · intro succeeds r hr
    simp [executedMoves, List.mem_filter, hr]

/-- Witness for C8 on a concrete two-item move. -/
theorem move_relocates_each_item_independently_witness :
    ((["/docs/a.txt", "/pics/b"] : List String) ≠ []) ∧
    ((movePlanWebdav ["/docs/a.txt", "/pics/b"] "/dest/").length =
        (["/docs/a.txt", "/pics/b"] : List String).length ∧
    (movePlanLocal ["/docs/a.txt", "/pics/b"] "/dest/").length =
        (["/docs/a.txt", "/pics/b"] : List String).length ∧
    (∀ i : Nat, (movePlanWebdav ["/docs/a.txt", "/pics/b"] "/dest/")[i]? =
      ((["/docs/a.txt", "/pics/b"] : List String)[i]?).map (fun item =>
        { src := item, dst := dropTrailingSlashes "/dest/" ++ "/" ++ basenameJS item })) ∧
    (∀ i : Nat, (movePlanLocal ["/docs/a.txt", "/pics/b"] "/dest/")[i]? =
      ((["/docs/a.txt", "/pics/b"] : List String)[i]?).map (fun item =>
        { src := item,
          dst := if ("/dest/" : String) == "/" then "/" ++ basenameJS item
            else "/dest/" ++ "/" ++ basenameJS item })) ∧
    (∀ succeeds : MoveReq → Bool, ∀ r ∈ movePlanWebdav ["/docs/a.txt", "/pics/b"] "/dest/",
      (r ∈ executedMoves (movePlanWebdav ["/docs/a.txt", "/pics/b"] "/dest/") succeeds ↔
        succeeds r = true)) ∧
    (∀ succeeds : MoveReq → Bool, ∀ r ∈ movePlanLocal ["/docs/a.txt", "/pics/b"] "/dest/",
      (r ∈ executedMoves (movePlanLocal ["/docs/a.txt", "/pics/b"] "/dest/") succeeds ↔
        succeeds r = true))) :=
  ⟨by decide, move_relocates_each_item_independently ["/docs/a.txt", "/pics/b"] "/dest/"
    (by decide)⟩

/-! ### Claim theorem for the sorted listing -/

theorem fileCmp_mixed (lc : String → String → Int) (key : SortKey) (dir : SortDir)
    (a b : FileEntry) (h : a.isDirectory ≠ b.isDirectory) :
    fileCmp lc key dir a b = if a.isDirectory then -1 else 1 := by
  unfold fileCmp
  rw [if_pos (by simp [h])]

theorem fileCmp_same_asc (lc : String → String → Int) (key : SortKey)
    (a b : FileEntry) (h : a.isDirectory = b.isDirectory) :
    fileCmp lc key .asc a b = keyCmp lc key a b := by
  unfold fileCmp
  rw [if_neg (by simp [h])]

theorem fileCmp_same_desc (lc : String → String → Int) (key : SortKey)
    (a b : FileEntry) (h : a.isDirectory = b.isDirectory) :
    fileCmp lc key .desc a b = -(keyCmp lc key a b) := by
  unfold fileCmp
  rw [if_neg (by simp [h])]

theorem lc_flip_nonneg {lc : String → String → Int}
    (hsign : ∀ a b, lc a b < 0 ↔ lc b a > 0) :
    ∀ x y, 0 ≤ lc x y → lc y x ≤ 0 := by
  intro x y h
  by_contra hc
  push_neg at hc
  have h2 := (hsign x y).2 hc
  omega

theorem lc_flip_nonpos {lc : String → String → Int}
    (hsign : ∀ a b, lc a b < 0 ↔ lc b a > 0) :
    ∀ x y, lc x y ≤ 0 → 0 ≤ lc y x := by
  intro x y h
  by_contra hc
  push_neg at hc
  have h2 := (hsign y x).1 hc
  omega

theorem keyCmp_flip_nonneg {lc : String → String → Int}
    (hsign : ∀ a b, lc a b < 0 ↔ lc b a > 0)
    (key : SortKey) (a b : FileEntry) (h : 0 ≤ keyCmp lc key a b) :
    keyCmp lc key b a ≤ 0 := by
  cases key <;> simp only [keyCmp] at h ⊢
  · exact lc_flip_nonneg hsign _ _ h
  · omega
  · exact lc_flip_nonneg hsign _ _ h

theorem keyCmp_flip_nonpos {lc : String → String → Int}
    (hsign : ∀ a b, lc a b < 0 ↔ lc b a > 0)
    (key : SortKey) (a b : FileEntry) (h : keyCmp lc key a b ≤ 0) :
    0 ≤ keyCmp lc key b a := by
  cases key <;> simp only [keyCmp] at h ⊢
  · exact lc_flip_nonpos hsign _ _ h
  · omega
  · exact lc_flip_nonpos hsign _ _ h

theorem keyCmp_trans {lc : String → String → Int}
    (htrans : ∀ a b c, lc a b ≤ 0 → lc b c ≤ 0 → lc a c ≤ 0)
    (key : SortKey) (a b c : FileEntry)
    (h1 : keyCmp lc key a b ≤ 0) (h2 : keyCmp lc key b c ≤ 0) :
    keyCmp lc key a c ≤ 0 := by
  cases key <;> simp only [keyCmp] at h1 h2 ⊢
  · exact htrans _ _ _ h1 h2
  · omega
  · exact htrans _ _ _ h1 h2

theorem fileLe_total {lc : String → String → Int}
    (hsign : ∀ a b, lc a b < 0 ↔ lc b a > 0)
    (key : SortKey) (dir : SortDir) :
    ∀ a b : FileEntry,
      (decide (fileCmp lc key dir a b ≤ 0) || decide (fileCmp lc key dir b a ≤ 0)) = true := by
  intro a b
  rw [Bool.or_eq_true, decide_eq_true_iff, decide_eq_true_iff]
  by_cases hd : a.isDirectory = b.isDirectory
  · cases dir with
    | asc =>
      rw [fileCmp_same_asc _ _ _ _ hd, fileCmp_same_asc _ _ _ _ hd.symm]
      by_cases h1 : keyCmp lc key a b ≤ 0
      · exact Or.inl h1
      · exact Or.inr (keyCmp_flip_nonneg hsign key a b (by omega))
    | desc =>
      rw [fileCmp_same_desc _ _ _ _ hd, fileCmp_same_desc _ _ _ _ hd.symm]
      by_cases h1 : keyCmp lc key a b ≤ 0
      · have h2 := keyCmp_flip_nonpos hsign key a b h1
        right
        omega
      · left
        omega
  · rw [fileCmp_mixed _ _ _ _ _ hd, fileCmp_mixed _ _ _ _ _ (fun hh => hd hh.symm)]
    cases ha : a.isDirectory
    · cases hb2 : b.isDirectory
      · exact absurd (ha.trans hb2.symm) hd
      · right
        norm_num
    · left
      norm_num

theorem fileLe_trans {lc : String → String → Int}
    (hsign : ∀ a b, lc a b < 0 ↔ lc b a > 0)
    (htrans : ∀ a b c, lc a b ≤ 0 → lc b c ≤ 0 → lc a c ≤ 0)
    (key : SortKey) (dir : SortDir) :
    ∀ a b c : FileEntry,
      decide (fileCmp lc key dir a b ≤ 0) = true →
      decide (fileCmp lc key dir b c ≤ 0) = true →
      decide (fileCmp lc key dir a c ≤ 0) = true := by
  intro a b c hab hbc
  rw [decide_eq_true_iff] at hab hbc ⊢
  by_cases hab' : a.isDirectory = b.isDirectory <;>
    by_cases hbc' : b.isDirectory = c.isDirectory
  · have hac' : a.isDirectory = c.isDirectory := hab'.trans hbc'
    cases dir with
    | asc =>
      rw [fileCmp_same_asc _ _ _ _ hab'] at hab
      rw [fileCmp_same_asc _ _ _ _ hbc'] at hbc
      rw [fileCmp_same_asc _ _ _ _ hac']
      exact keyCmp_trans htrans key a b c hab hbc
    | desc =>
      rw [fileCmp_same_desc _ _ _ _ hab'] at hab
      rw [fileCmp_same_desc _ _ _ _ hbc'] at hbc
      rw [fileCmp_same_desc _ _ _ _ hac']
      have h1 : keyCmp lc key b a ≤ 0 := keyCmp_flip_nonneg hsign key a b (by omega)
      have h2 : keyCmp lc key c b ≤ 0 := keyCmp_flip_nonneg hsign key b c (by omega)
      have h3 : keyCmp lc key c a ≤ 0 := keyCmp_trans htrans key c b a h2 h1
      have h4 := keyCmp_flip_nonpos hsign key c a h3
      omega
  · have hac' : a.isDirectory ≠ c.isDirectory := by rw [hab']; exact hbc'
    rw [fileCmp_mixed _ _ _ _ _ hbc'] at hbc
    rw [fileCmp_mixed _ _ _ _ _ hac']
    cases hbv : b.isDirectory
    · rw [hbv] at hbc
      norm_num at hbc
    · have hav : a.isDirectory = true := hab'.trans hbv
      rw [hav]
      norm_num
  · have hac' : a.isDirectory ≠ c.isDirectory := by rw [← hbc']; exact hab'
    rw [fileCmp_mixed _ _ _ _ _ hab'] at hab
    rw [fileCmp_mixed _ _ _ _ _ hac']
    cases hav : a.isDirectory
    · rw [hav] at hab
      norm_num at hab
    · norm_num
  · rw [fileCmp_mixed _ _ _ _ _ hab'] at hab
    rw [fileCmp_mixed _ _ _ _ _ hbc'] at hbc
    cases hav : a.isDirectory
    · rw [hav] at hab
      norm_num at hab
    · cases hbv : b.isDirectory
      · rw [hbv] at hbc
        norm_num at hbc
      · exact absurd (hav.trans hbv.symm) hab'

/-- C10: in the sorted listing every directory entry precedes every
non-directory entry, for every sort key and direction; and flipping the
direction negates the comparator only on same-kind pairs while mixed-kind
pairs compare identically, so reversal never disturbs the folders-first
placement. `lc` models `localeCompare`: sign-antisymmetric and transitive. -/
theorem sorted_files_folders_first
    (lc : String → String → Int)
    (hsign : ∀ a b, lc a b < 0 ↔ lc b a > 0)
    (htrans : ∀ a b c, lc a b ≤ 0 → lc b c ≤ 0 → lc a c ≤ 0)
    (key : SortKey) (dir : SortDir) (files : List FileEntry) :
    (sortedFiles lc key dir files).Pairwise
      (fun a b => a.isDirectory = false → b.isDirectory = false) ∧
    (∀ a b : FileEntry, a.isDirectory = b.isDirectory →
      fileCmp lc key .desc a b = -(fileCmp lc key .asc a b)) ∧
    (∀ a b : FileEntry, a.isDirectory ≠ b.isDirectory →
      fileCmp lc key .desc a b = fileCmp lc key .asc a b) := by
  refine ⟨?_, ?_, ?_⟩
  · have hp := List.sorted_mergeSort (fileLe_trans hsign htrans key dir)
      (fileLe_total hsign key dir) files
    refine List.Pairwise.imp ?_ hp
    intro a b hab ha
    by_contra hb
    have hb' : b.isDirectory = true := by
      cases hbv : b.isDirectory
      · exact absurd hbv hb
      · rfl
    have hne : a.isDirectory ≠ b.isDirectory := by
      rw [ha, hb']
      exact Bool.false_ne_true
    have hab' : fileCmp lc key dir a b ≤ 0 := by simpa using hab
    rw [fileCmp_mixed _ _ _ _ _ hne, ha] at hab'
    norm_num at hab'
  · intro a b h
    rw [fileCmp_same_desc _ _ _ _ h, fileCmp_same_asc _ _ _ _ h]
  · intro a b h
    rw [fileCmp_mixed _ _ _ _ _ h, fileCmp_mixed _ _ _ _ _ h]

/-- Witness for C10 with a concrete comparator and listing. -/
theorem sorted_files_folders_first_witness :
    (∀ a b : String, (0 : Int) < 0 ↔ (0 : Int) > 0) ∧
    (∀ a b c : String, (0 : Int) ≤ 0 → (0 : Int) ≤ 0 → (0 : Int) ≤ 0) ∧
    ((sortedFiles (fun _ _ => 0) .name .desc
        [{ name := "a.txt", isDirectory := false, mtime := 5 },
         { name := "dir", isDirectory := true, mtime := 3 }]).Pairwise
      (fun a b => a.isDirectory = false → b.isDirectory = false) ∧
    (∀ a b : FileEntry, a.isDirectory = b.isDirectory →
      fileCmp (fun _ _ => 0) .name .desc a b = -(fileCmp (fun _ _ => 0) .name .asc a b)) ∧
    (∀ a b : FileEntry, a.isDirectory ≠ b.isDirectory →
      fileCmp (fun _ _ => 0) .name .desc a b = fileCmp (fun _ _ => 0) .name .asc a b)) :=
  ⟨by simp, fun _ _ _ h _ => h,
    sorted_files_folders_first (fun _ _ => 0) (by simp) (fun _ _ _ h _ => h) .name .desc
      [{ name := "a.txt", isDirectory := false, mtime := 5 },
       { name := "dir", isDirectory := true, mtime := 3 }]⟩

end CloudDrive
